import Mathlib

/-!
# Verification of the MultiQC STAR and kraken2 modules

This file gives a shallow embedding of the two source files

* `multiqc/star/__init__.py` (the STAR aligner log parser, the derived
  unmapped-count calculator, the per-sample aggregation loop of
  `MultiqcModule.__init__`, and the report-emission steps), and
* `multiqc/modules/kraken2/kraken2.py` (the kraken2 module skeleton and the
  taxonomy-line regular expression defined in `parse_kraken_log`),

and proves the specification claims about them.  Numbers are modelled by `ℚ`
(the idealised exact value of the Python floats produced by `float()` on the
captured digit strings), Python dictionaries by association lists
(`List (String × ℚ)`), and exceptions by `Except PyErr`.
-/

set_option maxHeartbeats 1000000
set_option maxRecDepth 4000

deriving instance DecidableEq for Except

namespace MultiQC

attribute [local semireducible] Rat.add Rat.mul Rat.sub Rat.inv

/-- Python exceptions that the embedded code can raise. -/
inductive PyErr where
  | valueError
  | zeroDivisionError
  | keyError
  | userWarning
  | attributeError
  deriving DecidableEq, Repr

/-- A `FieldMap` is the embedding of one per-sample Python dict mapping field
names to numeric values. -/
def FieldMap := List (String × ℚ)
deriving DecidableEq, Repr

/-- A `Dataset` maps sample names to their `FieldMap`s (the embedding of
`self.star_data` / `self.kraken2_data`). -/
def Dataset := List (String × FieldMap)
deriving DecidableEq, Repr

/-- Python dict lookup `d[k]` (as an `Option`: `none` models `KeyError`). -/
def flookup (k : String) : List (String × α) → Option α
  | [] => none
  | (k', v) :: rest => if k' = k then some v else flookup k rest

/-- Python dict assignment `d[k] = v`: replace the value of the (unique)
existing binding in place if the key is present, otherwise append the new
binding at the end (dict keys keep insertion order). -/
def dinsert (k : String) (v : α) : List (String × α) → List (String × α)
  | [] => [(k, v)]
  | (k', v') :: rest => if k' = k then (k, v) :: rest else (k', v') :: dinsert k v rest

/-- Python `\s` on ASCII text: space, tab, newline, carriage return, vertical
tab and form feed. -/
def isPySpace (c : Char) : Bool :=
  c = ' ' || c = '\t' || c = '\n' || c = '\r' || c = '\x0b' || c = '\x0c'

/-- Python `\d` on ASCII text. -/
def isDig (c : Char) : Bool := c.isDigit

/-- The capture group used by a STAR regex: `(\d+)` or `([\d\.]+)`. -/
inductive Cap where
  | digits
  | numdot
  deriving DecidableEq, Repr

/-- The character class of a capture group. -/
def capP : Cap → Char → Bool
  | .digits => isDig
  | .numdot => fun c => isDig c || c = '.'

/-- Match a literal character sequence at the start of the input, returning
the remaining input. -/
def litMatch : List Char → List Char → Option (List Char)
  | [], rest => some rest
  | _ :: _, [] => none
  | p :: ps, c :: cs => if p = c then litMatch ps cs else none

/-- Try to match one STAR pattern `lit ++ \s+ ++ (class+)` at the current
position, returning the captured group.  The whitespace run and the capture
class are disjoint character sets, so the greedy Python semantics is
deterministic: consume the maximal whitespace run (at least one character),
then capture the maximal nonempty run of the class. -/
def starMatchAt (lit : List Char) (cap : Cap) (l : List Char) : Option (List Char) :=
  match litMatch lit l with
  | none => none
  | some rest =>
    let ws := rest.takeWhile isPySpace
    if ws.isEmpty then none
    else
      let grp := (rest.drop ws.length).takeWhile (capP cap)
      if grp.isEmpty then none else some grp

/-- The `re.search` behaviour for a STAR pattern: scan positions left to right and return
the captured group of the leftmost match (first match wins).  The patterns
contain no anchors, so the `re.MULTILINE` flag used by the source is
irrelevant to their semantics. -/
def starSearch (lit : List Char) (cap : Cap) : List Char → Option (List Char)
  | [] => starMatchAt lit cap []
  | c :: rest =>
    match starMatchAt lit cap (c :: rest) with
    | some g => some g
    | none => starSearch lit cap rest

/-- Numeric value of a digit string (most significant digit first). -/
def digVal (l : List Char) : ℕ :=
  l.foldl (fun a c => 10 * a + (c.toNat - 48)) 0

/-- Python `float()` on the strings producible by the STAR capture groups,
which are nonempty words over digits and `'.'`: an optional integer part,
at most one dot, and an optional fractional part, with at least one digit
overall.  Strings with two or more dots, or a dot with no digits, raise
`ValueError` (modelled as `none`).  Inputs outside the digits-and-dot
alphabet never reach this function in the embedded code. -/
def pyFloat (l : List Char) : Option ℚ :=
  if l.all (fun c => isDig c || c = '.') then
    match l.splitOn '.' with
    | [ip] => if ip.isEmpty then none else some (digVal ip)
    | [ip, fp] =>
      if ip.isEmpty && fp.isEmpty then none
      else some ((digVal ip : ℚ) + (digVal fp : ℚ) / (10 : ℚ) ^ fp.length)
    | _ => none
  else none

/-- The static regex table `regexes` of `parse_star_report`, in source order.
Each pattern is `literal \|\s+(\d+)` or `literal \|\s+([\d\.]+)`; the literal
part is stored with its escapes resolved. -/
def starRegexes : List (String × String × Cap) :=
  [ ("total_reads",                 "Number of input reads |",                     .digits),
    ("avg_input_read_length",       "Average input read length |",                 .numdot),
    ("uniquely_mapped",             "Uniquely mapped reads number |",              .digits),
    ("uniquely_mapped_percent",     "Uniquely mapped reads % |",                   .numdot),
    ("avg_mapped_read_length",      "Average mapped length |",                     .numdot),
    ("num_splices",                 "Number of splices: Total |",                  .digits),
    ("num_annotated_splices",       "Number of splices: Annotated (sjdb) |",       .digits),
    ("num_GTAG_splices",            "Number of splices: GT/AG |",                  .digits),
    ("num_GCAG_splices",            "Number of splices: GC/AG |",                  .digits),
    ("num_ATAC_splices",            "Number of splices: AT/AC |",                  .digits),
    ("num_noncanonical_splices",    "Number of splices: Non-canonical |",          .digits),
    ("mismatch_rate",               "Mismatch rate per base, % |",                 .numdot),
    ("deletion_rate",               "Deletion rate per base |",                    .numdot),
    ("deletion_length",             "Deletion average length |",                   .numdot),
    ("insertion_rate",              "Insertion rate per base |",                   .numdot),
    ("insertion_length",            "Insertion average length |",                  .numdot),
    ("multimapped",                 "Number of reads mapped to multiple loci |",   .digits),
    ("multimapped_percent",         "% of reads mapped to multiple loci |",        .numdot),
    ("multimapped_toomany",         "Number of reads mapped to too many loci |",   .digits),
    ("multimapped_toomany_percent", "% of reads mapped to too many loci |",        .numdot),
    ("unmapped_mismatches_percent", "% of reads unmapped: too many mismatches |",  .numdot),
    ("unmapped_tooshort_percent",   "% of reads unmapped: too short |",            .numdot),
    ("unmapped_other_percent",      "% of reads unmapped: other |",                .numdot) ]

/-- The extraction loop of `parse_star_report`: for each `(k, r)` of the regex
table in order, if `re.search(r, raw_data, re.MULTILINE)` succeeds, set
`parsed_data[k] = float(match.group(1))`.  A failed `float()` raises
`ValueError`. -/
def extractLoop (res : List (String × String × Cap)) (raw : List Char)
    (acc : FieldMap) : Except PyErr FieldMap :=
  match res with
  | [] => .ok acc
  | (k, lit, cap) :: rest =>
    match starSearch lit.toList cap raw with
    | none => extractLoop rest raw acc
    | some g =>
      match pyFloat g with
      | none => .error .valueError
      | some v => extractLoop rest raw (dinsert k v acc)

/-- The `parsed_data` dict produced by the regex loop of `parse_star_report`. -/
def extractFields (raw : List Char) : Except PyErr FieldMap :=
  extractLoop starRegexes raw []

/-- Python 3 `round` to zero decimal places: round half to even (banker's
rounding), on the idealised exact value. -/
def roundHalfEven (q : ℚ) : ℤ :=
  if q - (⌊q⌋ : ℚ) < 1 / 2 then ⌊q⌋
  else if (1 / 2 : ℚ) < q - (⌊q⌋ : ℚ) then ⌊q⌋ + 1
  else if ⌊q⌋ % 2 = 0 then ⌊q⌋ else ⌊q⌋ + 1

/-- The `try` block of `parse_star_report` that reconstructs the unmapped-read
counts.  All seven required keys are read before any derived field is
assigned; a missing key raises `KeyError`, which the `except KeyError: pass`
handler turns into "leave `parsed_data` unchanged".  A zero unmapped
percentage total raises `ZeroDivisionError` in `p / total_unmapped_percent`,
which the handler does not catch. -/
def tryDerived (pd : FieldMap) : Except PyErr FieldMap :=
  match flookup "uniquely_mapped" pd, flookup "multimapped" pd,
        flookup "multimapped_toomany" pd, flookup "total_reads" pd,
        flookup "unmapped_mismatches_percent" pd, flookup "unmapped_tooshort_percent" pd,
        flookup "unmapped_other_percent" pd with
  | some um, some mm, some mmt, some tr, some p1, some p2, some p3 =>
    let total_mapped := um + mm + mmt
    let unmapped_count := tr - total_mapped
    let total_unmapped_percent := p1 + p2 + p3
    if total_unmapped_percent = 0 then .error .zeroDivisionError
    else
      .ok (dinsert "unmapped_other"
            ((roundHalfEven (unmapped_count * (p3 / total_unmapped_percent)) : ℤ) : ℚ)
            (dinsert "unmapped_tooshort"
              ((roundHalfEven (unmapped_count * (p2 / total_unmapped_percent)) : ℤ) : ℚ)
              (dinsert "unmapped_mismatches"
                ((roundHalfEven (unmapped_count * (p1 / total_unmapped_percent)) : ℤ) : ℚ)
                pd)))
  | _, _, _, _, _, _, _ => .ok pd

/-- Embedding of `parse_star_report(raw_data)`: extract the regex fields, attempt the
derived-value calculation, and return `None` when nothing at all was parsed. -/
def parse_star_report (raw : List Char) : Except PyErr (Option FieldMap) :=
  match extractFields raw with
  | .error e => .error e
  | .ok pd =>
    match tryDerived pd with
    | .error e => .error e
    | .ok pd2 => .ok (if pd2.isEmpty then none else some pd2)

/-- The seven fields the derived-value calculation reads. -/
def req7 : List String :=
  ["total_reads", "uniquely_mapped", "multimapped", "multimapped_toomany",
   "unmapped_mismatches_percent", "unmapped_tooshort_percent", "unmapped_other_percent"]

/-- The three derived fields the calculation writes. -/
def derivedNames : List String :=
  ["unmapped_mismatches", "unmapped_tooshort", "unmapped_other"]

section MapLemmas

variable {α : Type _}

theorem flookup_dinsert_self (k : String) (v : α) (m : List (String × α)) :
    flookup k (dinsert k v m) = some v := by
  induction m with
  | nil => simp [dinsert, flookup]
  | cons p t ih =>
    obtain ⟨k0, v0⟩ := p
    by_cases hk : k0 = k
    · simp [dinsert, flookup, hk]
    · simp [dinsert, flookup, hk, ih]

theorem flookup_dinsert_ne (k' k : String) (v : α) (m : List (String × α))
    (h : k' ≠ k) : flookup k' (dinsert k v m) = flookup k' m := by
  induction m with
  | nil => simp [dinsert, flookup, Ne.symm h]
  | cons p t ih =>
    obtain ⟨k0, v0⟩ := p
    by_cases hk : k0 = k
    · subst hk
      simp [dinsert, flookup, Ne.symm h]
    · by_cases hk' : k0 = k'
      · simp [dinsert, flookup, hk, hk', h]
      · simp [dinsert, flookup, hk, hk', ih]

end MapLemmas

theorem roundHalfEven_close (q : ℚ) : |(roundHalfEven q : ℚ) - q| ≤ 1 / 2 := by
  have h0 : (⌊q⌋ : ℚ) ≤ q := Int.floor_le q
  have h1 : q < ⌊q⌋ + 1 := Int.lt_floor_add_one q
  unfold roundHalfEven
  split
  · rename_i h
    rw [abs_le]
    constructor <;> linarith
  · split
    · rename_i h h'
      push_cast
      rw [abs_le]
      constructor <;> linarith
    · rename_i h h'
      have he : q - (⌊q⌋ : ℚ) = 1 / 2 := le_antisymm (not_lt.mp h') (not_lt.mp h)
      split
      · rw [abs_le]
        constructor <;> linarith
      · push_cast
        rw [abs_le]
        constructor <;> linarith

/-- The derived-value `try` block leaves `parsed_data` unchanged (via the
`except KeyError: pass` handler) whenever one of its seven inputs is absent;
the lookups are listed in source evaluation order. -/
theorem tryDerived_of_missing (pd : FieldMap)
    (h : flookup "uniquely_mapped" pd = none ∨ flookup "multimapped" pd = none ∨
         flookup "multimapped_toomany" pd = none ∨ flookup "total_reads" pd = none ∨
         flookup "unmapped_mismatches_percent" pd = none ∨
         flookup "unmapped_tooshort_percent" pd = none ∨
         flookup "unmapped_other_percent" pd = none) :
    tryDerived pd = .ok pd := by
  unfold tryDerived
  cases e1 : flookup "uniquely_mapped" pd with
  | none => rfl
  | some um =>
  cases e2 : flookup "multimapped" pd with
  | none => rfl
  | some mm =>
  cases e3 : flookup "multimapped_toomany" pd with
  | none => rfl
  | some mmt =>
  cases e4 : flookup "total_reads" pd with
  | none => rfl
  | some tr =>
  cases e5 : flookup "unmapped_mismatches_percent" pd with
  | none => rfl
  | some p1 =>
  cases e6 : flookup "unmapped_tooshort_percent" pd with
  | none => rfl
  | some p2 =>
  cases e7 : flookup "unmapped_other_percent" pd with
  | none => rfl
  | some p3 =>
  simp only [e1, e2, e3, e4, e5, e6, e7] at h
  simp at h

/-- When all seven inputs are present and the percentages do not sum to zero,
the `try` block of `parse_star_report` appends exactly the three derived
fields computed by the source formulas. -/
theorem tryDerived_all_present (pd : FieldMap) (tr um mm mmt p1 p2 p3 : ℚ)
    (htr : flookup "total_reads" pd = some tr)
    (hum : flookup "uniquely_mapped" pd = some um)
    (hmm : flookup "multimapped" pd = some mm)
    (hmmt : flookup "multimapped_toomany" pd = some mmt)
    (hp1 : flookup "unmapped_mismatches_percent" pd = some p1)
    (hp2 : flookup "unmapped_tooshort_percent" pd = some p2)
    (hp3 : flookup "unmapped_other_percent" pd = some p3)
    (hT : p1 + p2 + p3 ≠ 0) :
    tryDerived pd = .ok
      (dinsert "unmapped_other"
        ((roundHalfEven ((tr - (um + mm + mmt)) * (p3 / (p1 + p2 + p3))) : ℤ) : ℚ)
        (dinsert "unmapped_tooshort"
          ((roundHalfEven ((tr - (um + mm + mmt)) * (p2 / (p1 + p2 + p3))) : ℤ) : ℚ)
          (dinsert "unmapped_mismatches"
            ((roundHalfEven ((tr - (um + mm + mmt)) * (p1 / (p1 + p2 + p3))) : ℤ) : ℚ)
            pd))) := by
  unfold tryDerived
  rw [hum, hmm, hmmt, htr, hp1, hp2, hp3]
  simp only [if_neg hT]

/-- Keys produced by the extraction loop are limited to the regex table:
looking up any other key after `extractLoop` sees the accumulator. -/
theorem extractLoop_notmem (res : List (String × String × Cap)) (raw : List Char)
    (acc pd : FieldMap) (k : String)
    (h : extractLoop res raw acc = .ok pd) (hk : k ∉ res.map (fun x => x.1)) :
    flookup k pd = flookup k acc := by
  induction res generalizing acc with
  | nil =>
    simp only [extractLoop] at h
    cases h
    rfl
  | cons hd rest ih =>
    obtain ⟨k0, lit, cap⟩ := hd
    simp only [List.map_cons, List.mem_cons, not_or] at hk
    obtain ⟨hk0, hkrest⟩ := hk
    cases hs : starSearch lit.toList cap raw with
    | none =>
      rw [extractLoop, hs] at h
      exact ih acc h hkrest
    | some g =>
      have h' : (match pyFloat g with
          | none => (Except.error PyErr.valueError : Except PyErr FieldMap)
          | some v => extractLoop rest raw (dinsert k0 v acc)) = .ok pd := by
        rw [extractLoop, hs] at h
        exact h
      cases hf : pyFloat g with
      | none =>
        rw [hf] at h'
        exact absurd h' (by simp)
      | some v =>
        rw [hf] at h'
        rw [ih (dinsert k0 v acc) h' hkrest, flookup_dinsert_ne k k0 v acc hk0]

/-- A key with a pattern in the table maps to the float of its first match:
the extraction loop sets exactly `float(group(1))` of the leftmost match. -/
theorem extractLoop_mem (res : List (String × String × Cap)) (raw : List Char)
    (acc pd : FieldMap) (k lit : String) (cap : Cap)
    (h : extractLoop res raw acc = .ok pd)
    (hnd : (res.map (fun x => x.1)).Nodup)
    (hmem : (k, lit, cap) ∈ res)
    (hacc : flookup k acc = none) :
    flookup k pd = (starSearch lit.toList cap raw).bind pyFloat := by
  induction res generalizing acc with
  | nil => simp at hmem
  | cons hd rest ih =>
    obtain ⟨k0, lit0, cap0⟩ := hd
    simp only [List.map_cons, List.nodup_cons] at hnd
    obtain ⟨hnd0, hndrest⟩ := hnd
    rcases List.mem_cons.mp hmem with heq | hmem'
    · obtain ⟨rfl, rfl, rfl⟩ : k = k0 ∧ lit = lit0 ∧ cap = cap0 := by
        simpa [Prod.ext_iff] using heq
      cases hs : starSearch lit.toList cap raw with
      | none =>
        have h' : extractLoop rest raw acc = .ok pd := by
          rw [extractLoop, hs] at h
          exact h
        rw [extractLoop_notmem rest raw acc pd k h' hnd0, hacc]
        rfl
      | some g =>
        have h' : (match pyFloat g with
            | none => (Except.error PyErr.valueError : Except PyErr FieldMap)
            | some v => extractLoop rest raw (dinsert k v acc)) = .ok pd := by
          rw [extractLoop, hs] at h
          exact h
        cases hf : pyFloat g with
        | none =>
          rw [hf] at h'
          exact absurd h' (by simp)
        | some v =>
          rw [hf] at h'
          rw [extractLoop_notmem rest raw (dinsert k v acc) pd k h' hnd0,
            flookup_dinsert_self]
          simp [hf]
    · have hkrest : k ∈ rest.map (fun x => x.1) := by
        simpa using List.mem_map_of_mem (fun x => x.1) hmem'
      have hne : k ≠ k0 := by
        rintro rfl
        exact hnd0 hkrest
      cases hs : starSearch lit0.toList cap0 raw with
      | none =>
        have h' : extractLoop rest raw acc = .ok pd := by
          rw [extractLoop, hs] at h
          exact h
        exact ih acc h' hndrest hmem' hacc
      | some g =>
        have h' : (match pyFloat g with
            | none => (Except.error PyErr.valueError : Except PyErr FieldMap)
            | some v => extractLoop rest raw (dinsert k0 v acc)) = .ok pd := by
          rw [extractLoop, hs] at h
          exact h
        cases hf : pyFloat g with
        | none =>
          rw [hf] at h'
          exact absurd h' (by simp)
        | some v =>
          rw [hf] at h'
          refine ih (dinsert k0 v acc) h' hndrest hmem' ?_
          rw [flookup_dinsert_ne _ _ _ _ hne]
          exact hacc

/-- The derived-value `try` block never touches any key other than the three
derived field names. -/
theorem tryDerived_lookup_eq (pd pd' : FieldMap) (k : String)
    (h : tryDerived pd = .ok pd')
    (h1 : k ≠ "unmapped_mismatches") (h2 : k ≠ "unmapped_tooshort")
    (h3 : k ≠ "unmapped_other") :
    flookup k pd' = flookup k pd := by
  unfold tryDerived at h
  split at h
  · simp only [] at h
    split at h
    · exact absurd h (by simp)
    · cases h
      rw [flookup_dinsert_ne _ _ _ _ h3, flookup_dinsert_ne _ _ _ _ h2,
        flookup_dinsert_ne _ _ _ _ h1]
  · cases h
    rfl

/-- C1: for every parsed STAR FieldMap containing total_reads,
uniquely_mapped, multimapped, multimapped_toomany and the three
unmapped-reason percentages (whose sum, the divisor of the formula, is
nonzero), `parse_star_report` adds the derived fields computed exactly as
`total_mapped = uniquely_mapped + multimapped + multimapped_toomany`,
`unmapped_count = total_reads - total_mapped`,
`total_unmapped_percent` = the sum of the three percentages, and each derived
count = `round(unmapped_count * (reason_percent / total_unmapped_percent))`
rounded to the nearest integer (half to even). -/
theorem star_derived_formulas (pd : FieldMap) (tr um mm mmt p1 p2 p3 : ℚ)
    (htr : flookup "total_reads" pd = some tr)
    (hum : flookup "uniquely_mapped" pd = some um)
    (hmm : flookup "multimapped" pd = some mm)
    (hmmt : flookup "multimapped_toomany" pd = some mmt)
    (hp1 : flookup "unmapped_mismatches_percent" pd = some p1)
    (hp2 : flookup "unmapped_tooshort_percent" pd = some p2)
    (hp3 : flookup "unmapped_other_percent" pd = some p3)
    (hT : p1 + p2 + p3 ≠ 0) :
    ∃ pd', tryDerived pd = .ok pd' ∧
      flookup "unmapped_mismatches" pd' =
        some ((roundHalfEven ((tr - (um + mm + mmt)) * (p1 / (p1 + p2 + p3))) : ℤ) : ℚ) ∧
      flookup "unmapped_tooshort" pd' =
        some ((roundHalfEven ((tr - (um + mm + mmt)) * (p2 / (p1 + p2 + p3))) : ℤ) : ℚ) ∧
      flookup "unmapped_other" pd' =
        some ((roundHalfEven ((tr - (um + mm + mmt)) * (p3 / (p1 + p2 + p3))) : ℤ) : ℚ) := by
  refine ⟨_, tryDerived_all_present pd tr um mm mmt p1 p2 p3 htr hum hmm hmmt hp1 hp2 hp3 hT,
    ?_, ?_, ?_⟩
  · rw [flookup_dinsert_ne _ _ _ _ (by decide), flookup_dinsert_ne _ _ _ _ (by decide),
      flookup_dinsert_self]
  · rw [flookup_dinsert_ne _ _ _ _ (by decide), flookup_dinsert_self]
  · rw [flookup_dinsert_self]

/-- C2: whenever `parse_star_report` returns a FieldMap, that map contains,
among the pattern-bearing field names, exactly those whose static regex
matched at least once in the text (first match wins, via the leftmost-scan
`starSearch`), each bound to the floating-point parse of the first match's
captured group; a field whose pattern did not match is absent (`none`), as is
any name outside the regex table and the three derived names, and absence of
a match is not an error. -/
theorem star_extract_exact (raw : List Char) (pd : FieldMap)
    (h : parse_star_report raw = .ok (some pd)) :
    (∀ k lit cap, (k, lit, cap) ∈ starRegexes →
       flookup k pd = (starSearch lit.toList cap raw).bind pyFloat) ∧
    (∀ k, k ∉ starRegexes.map (fun x => x.1) → k ∉ derivedNames →
       flookup k pd = none) := by
  unfold parse_star_report at h
  split at h
  · exact absurd h (by simp)
  · rename_i pd0 heq
    split at h
    · exact absurd h (by simp)
    · rename_i pd2 heq2
      have hpd : pd2 = pd := by
        by_cases he : pd2.isEmpty
        · rw [if_pos he] at h
          exact absurd h (by simp)
        · rw [if_neg he] at h
          simpa using h
      subst hpd
      have hdisj : ∀ k', k' ∈ starRegexes.map (fun x => x.1) → k' ∉ derivedNames := by
        decide
      constructor
      · intro k lit cap hmem
        have hknames : k ∈ starRegexes.map (fun x => x.1) := by
          simpa using List.mem_map_of_mem (fun x => x.1) hmem
        have hkd := hdisj k hknames
        simp only [derivedNames, List.mem_cons, List.not_mem_nil, or_false, not_or] at hkd
        obtain ⟨n1, n2, n3⟩ := hkd
        rw [tryDerived_lookup_eq pd0 pd2 k heq2 n1 n2 n3]
        exact extractLoop_mem starRegexes raw [] pd0 k lit cap heq (by decide) hmem rfl
      · intro k hknames hkd
        simp only [derivedNames, List.mem_cons, List.not_mem_nil, or_false, not_or] at hkd
        obtain ⟨n1, n2, n3⟩ := hkd
        rw [tryDerived_lookup_eq pd0 pd2 k heq2 n1 n2 n3]
        exact extractLoop_notmem starRegexes raw [] pd0 k heq hknames

/-- A STAR log matching exactly one pattern of the table. -/
def oneFieldLogW : List Char := ("Number of input reads |  5\n").toList

theorem star_extract_exact_witness :
    parse_star_report oneFieldLogW = .ok (some [("total_reads", 5)]) ∧
    ((∀ k lit cap, (k, lit, cap) ∈ starRegexes →
        flookup k [("total_reads", (5 : ℚ))] =
          (starSearch lit.toList cap oneFieldLogW).bind pyFloat) ∧
     (∀ k, k ∉ starRegexes.map (fun x => x.1) → k ∉ derivedNames →
        flookup k [("total_reads", (5 : ℚ))] = none)) :=
  ⟨by decide,
   star_extract_exact oneFieldLogW [("total_reads", 5)] (by decide)⟩

/-- A concrete FieldMap exercising the derived-value calculation:
100 reads, 96 mapped, percentages 1.5 / 2.0 / 0.5. -/
def wpd : FieldMap :=
  [("total_reads", 100), ("uniquely_mapped", 90), ("multimapped", 5),
   ("multimapped_toomany", 1), ("unmapped_mismatches_percent", 3 / 2),
   ("unmapped_tooshort_percent", 2), ("unmapped_other_percent", 1 / 2)]

theorem star_derived_formulas_witness :
    flookup "total_reads" wpd = some 100 ∧
    flookup "uniquely_mapped" wpd = some 90 ∧
    flookup "multimapped" wpd = some 5 ∧
    flookup "multimapped_toomany" wpd = some 1 ∧
    flookup "unmapped_mismatches_percent" wpd = some (3 / 2) ∧
    flookup "unmapped_tooshort_percent" wpd = some 2 ∧
    flookup "unmapped_other_percent" wpd = some (1 / 2) ∧
    ((3 : ℚ) / 2 + 2 + 1 / 2 ≠ 0) ∧
    (∃ pd', tryDerived wpd = .ok pd' ∧
      flookup "unmapped_mismatches" pd' =
        some ((roundHalfEven ((100 - (90 + 5 + 1)) * ((3 / 2) / (3 / 2 + 2 + 1 / 2))) : ℤ) : ℚ) ∧
      flookup "unmapped_tooshort" pd' =
        some ((roundHalfEven ((100 - (90 + 5 + 1)) * (2 / (3 / 2 + 2 + 1 / 2))) : ℤ) : ℚ) ∧
      flookup "unmapped_other" pd' =
        some ((roundHalfEven ((100 - (90 + 5 + 1)) * ((1 / 2) / (3 / 2 + 2 + 1 / 2))) : ℤ) : ℚ)) :=
  ⟨by decide, by decide, by decide,
   by decide, by decide, by decide,
   by decide, by norm_num,
   star_derived_formulas wpd 100 90 5 1 (3 / 2) 2 (1 / 2)
     (by decide) (by decide) (by decide)
     (by decide) (by decide) (by decide)
     (by decide) (by norm_num)⟩

/-- C3: if any of the seven required inputs is absent from the extracted
FieldMap, the derived-value calculation is skipped entirely and atomically:
none of the three derived fields appears, the extracted fields are returned
unchanged, and no error is raised for the missing dependency. -/
theorem star_missing_input_skips_derived (raw : List Char) (pd : FieldMap) (f : String)
    (hext : extractFields raw = .ok pd)
    (hf : f ∈ req7) (hmiss : flookup f pd = none) :
    tryDerived pd = .ok pd ∧
    parse_star_report raw = .ok (if pd.isEmpty then none else some pd) ∧
    flookup "unmapped_mismatches" pd = none ∧
    flookup "unmapped_tooshort" pd = none ∧
    flookup "unmapped_other" pd = none := by
  have hder : tryDerived pd = .ok pd := by
    apply tryDerived_of_missing
    have hf' : f = "total_reads" ∨ f = "uniquely_mapped" ∨ f = "multimapped" ∨
        f = "multimapped_toomany" ∨ f = "unmapped_mismatches_percent" ∨
        f = "unmapped_tooshort_percent" ∨ f = "unmapped_other_percent" := by
      simpa [req7] using hf
    rcases hf' with h | h | h | h | h | h | h <;> subst h
    · exact Or.inr (Or.inr (Or.inr (Or.inl hmiss)))
    · exact Or.inl hmiss
    · exact Or.inr (Or.inl hmiss)
    · exact Or.inr (Or.inr (Or.inl hmiss))
    · exact Or.inr (Or.inr (Or.inr (Or.inr (Or.inl hmiss))))
    · exact Or.inr (Or.inr (Or.inr (Or.inr (Or.inr (Or.inl hmiss)))))
    · exact Or.inr (Or.inr (Or.inr (Or.inr (Or.inr (Or.inr hmiss)))))
  have habs : ∀ k, k ∈ derivedNames → flookup k pd = none := by
    intro k hk
    have hnot : k ∉ starRegexes.map (fun x => x.1) := by
      have : ∀ k ∈ derivedNames, k ∉ starRegexes.map (fun x => x.1) := by decide
      exact this k hk
    exact extractLoop_notmem starRegexes raw [] pd k hext hnot
  refine ⟨hder, ?_, habs _ (by decide), habs _ (by decide), habs _ (by decide)⟩
  simp only [parse_star_report]
  rw [hext]
  simp only [hder]

/-- A STAR log containing only the total-reads line: the other six derived
inputs are missing, so the calculation must be skipped. -/
def oneFieldLog : List Char := ("Number of input reads |  5\n").toList

theorem star_missing_input_skips_derived_witness :
    extractFields oneFieldLog = .ok [("total_reads", 5)] ∧
    "uniquely_mapped" ∈ req7 ∧
    flookup "uniquely_mapped" [("total_reads", (5 : ℚ))] = none ∧
    (tryDerived [("total_reads", (5 : ℚ))] = .ok [("total_reads", 5)] ∧
     parse_star_report oneFieldLog =
       .ok (if ([("total_reads", (5 : ℚ))] : FieldMap).isEmpty then none
            else some [("total_reads", 5)]) ∧
     flookup "unmapped_mismatches" [("total_reads", (5 : ℚ))] = none ∧
     flookup "unmapped_tooshort" [("total_reads", (5 : ℚ))] = none ∧
     flookup "unmapped_other" [("total_reads", (5 : ℚ))] = none) :=
  ⟨by decide, by decide, by decide,
   star_missing_input_skips_derived oneFieldLog [("total_reads", 5)] "uniquely_mapped"
     (by decide) (by decide) (by decide)⟩

/-- A complete STAR log in which every read mapped: all seven derived-value
inputs are present and the three unmapped percentages are all `0.00`. -/
def zeroPercentLog : List Char :=
  ("Number of input reads |\t100\nUniquely mapped reads number |\t100\nNumber of reads mapped to multiple loci |\t0\nNumber of reads mapped to too many loci |\t0\n% of reads unmapped: too many mismatches |\t0.00\n% of reads unmapped: too short |\t0.00\n% of reads unmapped: other |\t0.00\n").toList

/-- C4: contrary to the claim that no per-sample parse is fatal, a log whose
three unmapped percentages sum to zero makes `parse_star_report` raise an
uncaught `ZeroDivisionError` (`p / total_unmapped_percent` with the `try`
block catching only `KeyError`), instead of returning `None` or a FieldMap. -/
theorem star_zero_percent_zerodiv :
    parse_star_report zeroPercentLog = .error .zeroDivisionError := by
  decide

/-- C5: whenever all seven inputs are present and the percentage sum is
positive, the three derived counts sum to within ±2 of
`unmapped_count = total_reads - total_mapped`. -/
theorem star_unmapped_sum_close (pd : FieldMap) (tr um mm mmt p1 p2 p3 : ℚ)
    (htr : flookup "total_reads" pd = some tr)
    (hum : flookup "uniquely_mapped" pd = some um)
    (hmm : flookup "multimapped" pd = some mm)
    (hmmt : flookup "multimapped_toomany" pd = some mmt)
    (hp1 : flookup "unmapped_mismatches_percent" pd = some p1)
    (hp2 : flookup "unmapped_tooshort_percent" pd = some p2)
    (hp3 : flookup "unmapped_other_percent" pd = some p3)
    (hT : 0 < p1 + p2 + p3) :
    ∃ pd', ∃ d1 d2 d3 : ℤ, tryDerived pd = .ok pd' ∧
      flookup "unmapped_mismatches" pd' = some (d1 : ℚ) ∧
      flookup "unmapped_tooshort" pd' = some (d2 : ℚ) ∧
      flookup "unmapped_other" pd' = some (d3 : ℚ) ∧
      |(d1 : ℚ) + (d2 : ℚ) + (d3 : ℚ) - (tr - (um + mm + mmt))| ≤ 2 := by
  have hT' : p1 + p2 + p3 ≠ 0 := ne_of_gt hT
  refine ⟨_, roundHalfEven ((tr - (um + mm + mmt)) * (p1 / (p1 + p2 + p3))),
    roundHalfEven ((tr - (um + mm + mmt)) * (p2 / (p1 + p2 + p3))),
    roundHalfEven ((tr - (um + mm + mmt)) * (p3 / (p1 + p2 + p3))),
    tryDerived_all_present pd tr um mm mmt p1 p2 p3 htr hum hmm hmmt hp1 hp2 hp3 hT',
    ?_, ?_, ?_, ?_⟩
  · rw [flookup_dinsert_ne _ _ _ _ (by decide), flookup_dinsert_ne _ _ _ _ (by decide),
      flookup_dinsert_self]
  · rw [flookup_dinsert_ne _ _ _ _ (by decide), flookup_dinsert_self]
  · rw [flookup_dinsert_self]
  · have e : (tr - (um + mm + mmt)) * (p1 / (p1 + p2 + p3)) +
        (tr - (um + mm + mmt)) * (p2 / (p1 + p2 + p3)) +
        (tr - (um + mm + mmt)) * (p3 / (p1 + p2 + p3)) = tr - (um + mm + mmt) := by
      field_simp
      ring
    have b1 := roundHalfEven_close ((tr - (um + mm + mmt)) * (p1 / (p1 + p2 + p3)))
    have b2 := roundHalfEven_close ((tr - (um + mm + mmt)) * (p2 / (p1 + p2 + p3)))
    have b3 := roundHalfEven_close ((tr - (um + mm + mmt)) * (p3 / (p1 + p2 + p3)))
    rw [abs_le] at b1 b2 b3 ⊢
    constructor <;> [skip; skip] <;> · obtain ⟨l1, r1⟩ := b1; obtain ⟨l2, r2⟩ := b2
                                       obtain ⟨l3, r3⟩ := b3; linarith

theorem star_unmapped_sum_close_witness :
    flookup "total_reads" wpd = some 100 ∧
    flookup "uniquely_mapped" wpd = some 90 ∧
    flookup "multimapped" wpd = some 5 ∧
    flookup "multimapped_toomany" wpd = some 1 ∧
    flookup "unmapped_mismatches_percent" wpd = some (3 / 2) ∧
    flookup "unmapped_tooshort_percent" wpd = some 2 ∧
    flookup "unmapped_other_percent" wpd = some (1 / 2) ∧
    ((0 : ℚ) < 3 / 2 + 2 + 1 / 2) ∧
    (∃ pd', ∃ d1 d2 d3 : ℤ, tryDerived wpd = .ok pd' ∧
      flookup "unmapped_mismatches" pd' = some (d1 : ℚ) ∧
      flookup "unmapped_tooshort" pd' = some (d2 : ℚ) ∧
      flookup "unmapped_other" pd' = some (d3 : ℚ) ∧
      |(d1 : ℚ) + (d2 : ℚ) + (d3 : ℚ) - (100 - (90 + 5 + 1))| ≤ 2) :=
  ⟨by decide, by decide, by decide,
   by decide, by decide, by decide,
   by decide, by norm_num,
   star_unmapped_sum_close wpd 100 90 5 1 (3 / 2) 2 (1 / 2)
     (by decide) (by decide) (by decide)
     (by decide) (by decide) (by decide)
     (by decide) (by norm_num)⟩

/-!
## The STAR module's aggregation loop

`MultiqcModule.__init__` iterates over the located log files (each a pair of
sample name `f['s_name']` and raw content `f['f']`), parses each, and stores
non-`None` results in `self.star_data`, logging a duplicate-sample warning
before overwriting an existing key.  The warning log is modelled as a list
of the duplicated sample names.
-/

/-- The `for f in self.find_log_files(...)` loop of the STAR module. -/
def starAggLoop : List (String × List Char) → Dataset × List String →
    Except PyErr (Dataset × List String)
  | [], st => .ok st
  | (n, c) :: rest, (data, warns) =>
    match parse_star_report c with
    | .error e => .error e
    | .ok none => starAggLoop rest (data, warns)
    | .ok (some pd) =>
      starAggLoop rest
        (dinsert n pd data, if (flookup n data).isSome then warns ++ [n] else warns)

theorem starAggLoop_append (xs ys : List (String × List Char))
    (st : Dataset × List String) :
    starAggLoop (xs ++ ys) st =
      match starAggLoop xs st with
      | .ok st' => starAggLoop ys st'
      | .error e => .error e := by
  induction xs generalizing st with
  | nil => simp [starAggLoop]
  | cons hd t ih =>
    obtain ⟨n, c⟩ := hd
    obtain ⟨data, warns⟩ := st
    cases hp : parse_star_report c with
    | error e => simp [starAggLoop, hp]
    | ok r =>
      cases r with
      | none => simp only [List.cons_append, starAggLoop, hp, List.append_eq, ih]
      | some pd => simp only [List.cons_append, starAggLoop, hp, List.append_eq, ih]

theorem starAggLoop_ok (l : List (String × List Char))
    (hok : ∀ p ∈ l, ∃ r, parse_star_report p.2 = .ok r) (st : Dataset × List String) :
    ∃ st', starAggLoop l st = .ok st' := by
  induction l generalizing st with
  | nil => exact ⟨st, rfl⟩
  | cons hd t ih =>
    obtain ⟨n, c⟩ := hd
    obtain ⟨data, warns⟩ := st
    obtain ⟨r, hr⟩ := hok (n, c) (List.mem_cons_self _ _)
    have hok' : ∀ p ∈ t, ∃ r, parse_star_report p.2 = .ok r :=
      fun p hp => hok p (List.mem_cons_of_mem _ hp)
    cases r with
    | none =>
      obtain ⟨st', h'⟩ := ih hok' (data, warns)
      exact ⟨st', by rw [starAggLoop, hr]; exact h'⟩
    | some pd =>
      obtain ⟨st', h'⟩ := ih hok'
        (dinsert n pd data, if (flookup n data).isSome then warns ++ [n] else warns)
      exact ⟨st', by rw [starAggLoop, hr]; exact h'⟩

theorem starAggLoop_lookup_of_notmem (l : List (String × List Char)) (n : String)
    (hn : n ∉ l.map Prod.fst) (data : Dataset) (warns : List String)
    (d' : Dataset) (w' : List String)
    (h : starAggLoop l (data, warns) = .ok (d', w')) :
    flookup n d' = flookup n data := by
  induction l generalizing data warns with
  | nil =>
    simp only [starAggLoop] at h
    cases h
    rfl
  | cons hd t ih =>
    obtain ⟨m, c⟩ := hd
    simp only [List.map_cons, List.mem_cons, not_or] at hn
    obtain ⟨hnm, hnt⟩ := hn
    cases hp : parse_star_report c with
    | error e =>
      rw [starAggLoop, hp] at h
      exact absurd h (by simp)
    | ok r =>
      cases r with
      | none =>
        have h' : starAggLoop t (data, warns) = .ok (d', w') := by
          rw [starAggLoop, hp] at h
          exact h
        exact ih hnt data warns h'
      | some pd =>
        have h' : starAggLoop t (dinsert m pd data,
            if (flookup m data).isSome then warns ++ [m] else warns) = .ok (d', w') := by
          rw [starAggLoop, hp] at h
          exact h
        rw [ih hnt _ _ h', flookup_dinsert_ne _ _ _ _ hnm]

theorem starAggLoop_mem_mono (l : List (String × List Char)) (n : String)
    (data : Dataset) (warns : List String) (d' : Dataset) (w' : List String)
    (hmem : (flookup n data).isSome = true)
    (h : starAggLoop l (data, warns) = .ok (d', w')) :
    (flookup n d').isSome = true := by
  induction l generalizing data warns with
  | nil =>
    simp only [starAggLoop] at h
    cases h
    exact hmem
  | cons hd t ih =>
    obtain ⟨m, c⟩ := hd
    cases hp : parse_star_report c with
    | error e =>
      rw [starAggLoop, hp] at h
      exact absurd h (by simp)
    | ok r =>
      cases r with
      | none =>
        have h' : starAggLoop t (data, warns) = .ok (d', w') := by
          rw [starAggLoop, hp] at h
          exact h
        exact ih data warns hmem h'
      | some pd =>
        have h' : starAggLoop t (dinsert m pd data,
            if (flookup m data).isSome then warns ++ [m] else warns) = .ok (d', w') := by
          rw [starAggLoop, hp] at h
          exact h
        refine ih _ _ ?_ h'
        by_cases hnm : n = m
        · subst hnm
          rw [flookup_dinsert_self]
          rfl
        · rw [flookup_dinsert_ne _ _ _ _ hnm]
          exact hmem

theorem starAggLoop_warns_mono (l : List (String × List Char)) (x : String)
    (data : Dataset) (warns : List String) (d' : Dataset) (w' : List String)
    (hx : x ∈ warns) (h : starAggLoop l (data, warns) = .ok (d', w')) : x ∈ w' := by
  induction l generalizing data warns with
  | nil =>
    simp only [starAggLoop] at h
    cases h
    exact hx
  | cons hd t ih =>
    obtain ⟨m, c⟩ := hd
    cases hp : parse_star_report c with
    | error e =>
      rw [starAggLoop, hp] at h
      exact absurd h (by simp)
    | ok r =>
      cases r with
      | none =>
        have h' : starAggLoop t (data, warns) = .ok (d', w') := by
          rw [starAggLoop, hp] at h
          exact h
        exact ih data warns hx h'
      | some pd =>
        have h' : starAggLoop t (dinsert m pd data,
            if (flookup m data).isSome then warns ++ [m] else warns) = .ok (d', w') := by
          rw [starAggLoop, hp] at h
          exact h
        refine ih _ _ ?_ h'
        split
        · exact List.mem_append_left _ hx
        · exact hx

/-- C6: over any run of successfully parsed log files in which a sample name
occurs (at least) twice, the aggregation loop ends with that name bound to
the FieldMap of its last-seen file, records a duplicate-sample warning for
it, and never fails on the duplicate insertion. -/
theorem star_duplicate_last_wins
    (l1 l2 l3 : List (String × List Char)) (n : String) (c1 c2 : List Char)
    (pd1 pd2 : FieldMap)
    (h1 : parse_star_report c1 = .ok (some pd1))
    (h2 : parse_star_report c2 = .ok (some pd2))
    (hok : ∀ p ∈ l1 ++ (n, c1) :: l2 ++ (n, c2) :: l3, ∃ r, parse_star_report p.2 = .ok r)
    (hlast : n ∉ l3.map Prod.fst) :
    ∃ d w, starAggLoop (l1 ++ (n, c1) :: l2 ++ (n, c2) :: l3) ([], []) = .ok (d, w) ∧
      flookup n d = some pd2 ∧ n ∈ w := by
  have hok1 : ∀ p ∈ l1, ∃ r, parse_star_report p.2 = .ok r := by
    intro p hp
    exact hok p (by simp [hp])
  have hok2 : ∀ p ∈ l2, ∃ r, parse_star_report p.2 = .ok r := by
    intro p hp
    exact hok p (by simp [hp])
  have hok3 : ∀ p ∈ l3, ∃ r, parse_star_report p.2 = .ok r := by
    intro p hp
    exact hok p (by simp [hp])
  obtain ⟨⟨d1, w1⟩, hl1⟩ := starAggLoop_ok l1 hok1 ([], [])
  obtain ⟨⟨d2, w2⟩, hl2⟩ := starAggLoop_ok l2 hok2
    (dinsert n pd1 d1, if (flookup n d1).isSome then w1 ++ [n] else w1)
  have hmem2 : (flookup n d2).isSome = true :=
    starAggLoop_mem_mono l2 n _ _ _ _ (by rw [flookup_dinsert_self]; rfl) hl2
  obtain ⟨⟨d, w⟩, hl3⟩ := starAggLoop_ok l3 hok3 (dinsert n pd2 d2, w2 ++ [n])
  refine ⟨d, w, ?_, ?_, ?_⟩
  · simp only [starAggLoop_append, starAggLoop, hl1, hl2, hl3, h1, h2, hmem2, if_true]
  · rw [starAggLoop_lookup_of_notmem l3 n hlast _ _ d w hl3, flookup_dinsert_self]
  · exact starAggLoop_warns_mono l3 n _ _ d w (by simp) hl3

/-- Two log files carrying the same sample name with different read counts. -/
def dupLog1 : List Char := ("Number of input reads |  5\n").toList

/-- The second, later-seen log file for the duplicated sample name. -/
def dupLog2 : List Char := ("Number of input reads |  7\n").toList

theorem star_duplicate_last_wins_witness :
    parse_star_report dupLog1 = .ok (some [("total_reads", 5)]) ∧
    parse_star_report dupLog2 = .ok (some [("total_reads", 7)]) ∧
    (∀ p ∈ ([] : List (String × List Char)) ++ ("s", dupLog1) ::
        ([] : List (String × List Char)) ++ ("s", dupLog2) :: ([] : List (String × List Char)),
      ∃ r, parse_star_report p.2 = .ok r) ∧
    "s" ∉ ([] : List (String × List Char)).map Prod.fst ∧
    (∃ d w, starAggLoop (([] : List (String × List Char)) ++ ("s", dupLog1) ::
        ([] : List (String × List Char)) ++ ("s", dupLog2) :: ([] : List (String × List Char)))
        ([], []) = .ok (d, w) ∧
      flookup "s" d = some [("total_reads", 7)] ∧ "s" ∈ w) := by
  refine ⟨by decide, by decide, ?_, by simp, ?_⟩
  · intro p hp
    simp at hp
    rcases hp with rfl | rfl
    · exact ⟨some [("total_reads", 5)], by decide⟩
    · exact ⟨some [("total_reads", 7)], by decide⟩
  · exact star_duplicate_last_wins [] [] [] "s" dupLog1 dupLog2
      [("total_reads", 5)] [("total_reads", 7)]
      (by decide) (by decide)
      (by
        intro p hp
        simp at hp
        rcases hp with rfl | rfl
        · exact ⟨some [("total_reads", 5)], by decide⟩
        · exact ⟨some [("total_reads", 7)], by decide⟩)
      (by simp)

/-!
## Module-level pipeline: ignore-list, emission, and the kraken2 skeleton
-/

/-- Glob matching with `*` wildcards (plus exact match as the degenerate
case), for ignore-list patterns: a `*` consumes any number of characters,
tried via every possible suffix of the remaining input. -/
def globMatch : List Char → List Char → Bool
  | [], s => s.isEmpty
  | '*' :: ps, s => (List.range (s.length + 1)).any (fun i => globMatch ps (s.drop i))
  | p :: ps, [] => false
  | p :: ps, c :: s => (p = c) && globMatch ps s

/-- Modelled from the spec: `BaseMultiqcModule.ignore_samples` (defined in the
base module, which is not under `src/`) removes from the Dataset every sample
whose name matches a configured ignore pattern (glob or exact match). -/
def ignoreSamples (pats : List String) (d : Dataset) : Dataset :=
  d.filter (fun p => !(pats.any (fun pat => globMatch pat.toList p.1.toList)))

/-- The rows the STAR module adds to the shared general-statistics table:
`star_stats_table` reads `uniquely_mapped_percent` and `uniquely_mapped` of
every sample (a `KeyError` if a sample's map lacks them) and formats the
percentage and the count scaled to millions. -/
def star_stats_rows : Dataset → Except PyErr (List (String × ℚ × ℚ))
  | [] => .ok []
  | (sn, d) :: rest =>
    match flookup "uniquely_mapped_percent" d, flookup "uniquely_mapped" d with
    | some p, some u =>
      match star_stats_rows rest with
      | .error e => .error e
      | .ok t => .ok ((sn, p, u / 1000000) :: t)
    | _, _ => .error .keyError

/-- Everything the STAR module emits when it completes: the aggregated
dataset, the duplicate-name warnings, the written data files
(`write_csv_file(self.star_data, 'multiqc_star.txt')`), and the
general-statistics rows.  The bar chart is drawn from the same `star_data`. -/
structure StarOut where
  data : Dataset
  warns : List String
  written : List (String × Dataset)
  statsRows : List (String × ℚ × ℚ)
  deriving DecidableEq

/-- Embedding of `MultiqcModule.__init__` of the STAR module: find and parse the logs,
raise `UserWarning` when nothing was parsed, then write the data file and
fill the general-statistics table.  The module never consults the configured
sample-name ignore-list (the `ignorePats` argument), unlike the kraken2
module. -/
def starInit (ignorePats : List String) (files : List (String × List Char)) :
    Except PyErr StarOut :=
  match starAggLoop files ([], []) with
  | .error e => .error e
  | .ok (data, warns) =>
    if data.isEmpty then .error .userWarning
    else
      match star_stats_rows data with
      | .error e => .error e
      | .ok rows => .ok ⟨data, warns, [("multiqc_star.txt", data)], rows⟩

/-- Modelled from the spec: the pipeline runner (not under `src/`) treats a
module's `UserWarning` as the non-fatal "nothing to report" skip signal and
omits the module from the report; any other exception is surfaced. -/
def runModule {α : Type _} (r : Except PyErr α) : Except PyErr (Option α) :=
  match r with
  | .ok a => .ok (some a)
  | .error .userWarning => .ok none
  | .error e => .error e

/-- The parse methods the kraken2 `MultiqcModule` class actually defines:
only `parse_kraken_log` (whose loop body is an empty stub). -/
def kraken2Methods : List String := ["parse_kraken_log"]

/-- Python attribute lookup for a method call `self.<name>(f)`: a name the
class does not define raises `AttributeError`. -/
def callMethod (name : String) : Except PyErr Unit :=
  if name ∈ kraken2Methods then .ok () else .error .attributeError

/-- What the kraken2 module writes on success. -/
structure KrakenOut where
  data : Dataset
  written : List (String × Dataset)
  deriving DecidableEq

/-- The `for f in self.find_log_files('kraken2', ...)` loop of the kraken2
module: each iteration invokes `self.parse_kraken2_log(f)` — a method the
class does not define — and never adds anything to `self.kraken2_data`. -/
def kraken2Loop : List (String × List Char) → Except PyErr Unit
  | [] => .ok ()
  | _ :: rest =>
    match callMethod "parse_kraken2_log" with
    | .error e => .error e
    | .ok _ => kraken2Loop rest

/-- Embedding of `MultiqcModule.__init__` of the kraken2 module: run the parse loop over
the located files, strip ignored sample names from `self.kraken2_data`
(still empty, since the loop never populates it), raise `UserWarning` when
it is empty, else write the data file. -/
def kraken2Init (ignorePats : List String) (files : List (String × List Char)) :
    Except PyErr KrakenOut :=
  match kraken2Loop files with
  | .error e => .error e
  | .ok _ =>
    let data := ignoreSamples ignorePats []
    if data.isEmpty then .error .userWarning
    else .ok ⟨data, [("multiqc_kraken2", data)]⟩

/-- A STAR log for a sample whose name the ignore-list matches; it parses
successfully and carries the two fields the general-statistics table reads. -/
def ignoredSampleLog : List Char :=
  ("Uniquely mapped reads number |\t10\nUniquely mapped reads % |\t50.0\n").toList

/-- The FieldMap extracted from `ignoredSampleLog`. -/
def ignoredSamplePd : FieldMap :=
  [("uniquely_mapped", 10), ("uniquely_mapped_percent", 50)]

/-- C7 counterexample: with the ignore-list pattern "sampleA" configured (an
exact glob match for the sample's name), the STAR module still emits
"sampleA" in its final Dataset, its written data file, and its
general-statistics rows — the module never applies the ignore-list. -/
theorem star_ignore_list_not_applied_cx :
    globMatch "sampleA".toList "sampleA".toList = true ∧
    starInit ["sampleA"] [("sampleA", ignoredSampleLog)] =
      .ok ⟨[("sampleA", ignoredSamplePd)], [],
           [("multiqc_star.txt", [("sampleA", ignoredSamplePd)])],
           [("sampleA", 50, 1 / 100000)]⟩ := by
  decide

/-- C7 amended: the kraken2 module filters its Dataset through
`ignore_samples` before the empty-check, but the STAR module applies no
ignore-list filtering at all — every output of `starInit` (dataset, data
file, statistics rows) is independent of the configured ignore-list, so a
successfully parsed sample appears in them even when an ignore pattern
matches its name. -/
theorem star_output_ignores_ignorelist (pats pats' : List String)
    (files : List (String × List Char)) :
    starInit pats files = starInit pats' files := rfl

/-- C8: a run whose aggregation ends with an empty Dataset (including the
zero-files case, and after kraken2's ignore filtering) makes the module
raise `UserWarning` before writing any data file or report section, and the
runner turns that signal into a non-fatal skip (`ok none`: module omitted,
nothing written, no crash surfaced to the user). -/
theorem empty_dataset_skips_module (pats pats2 : List String)
    (files : List (String × List Char)) (w : List String)
    (hagg : starAggLoop files ([], []) = .ok ([], w)) :
    runModule (starInit pats files) = .ok none ∧
    runModule (kraken2Init pats2 []) = .ok none := by
  constructor
  · unfold starInit
    rw [hagg]
    rfl
  · rfl

theorem empty_dataset_skips_module_witness :
    starAggLoop [] ([], []) = .ok ([], []) ∧
    (runModule (starInit [] []) = .ok none ∧
     runModule (kraken2Init [] []) = .ok none) :=
  ⟨rfl, empty_dataset_skips_module [] [] [] [] rfl⟩

/-- C10: as soon as the locator yields at least one kraken2 log file, the
kraken2 `__init__` raises `AttributeError` on its very first iteration — it
invokes `self.parse_kraken2_log`, which the class does not define (only
`parse_kraken_log` exists, with an empty loop body) — so the kraken2
pipeline never completes with a populated Dataset, a written data file, or a
rendered table. -/
theorem kraken2_calls_missing_method (pats : List String)
    (files : List (String × List Char)) (hne : files ≠ []) :
    kraken2Init pats files = .error .attributeError ∧
    ∀ out : KrakenOut, kraken2Init pats files ≠ .ok out := by
  obtain ⟨f, rest, rfl⟩ : ∃ f rest, files = f :: rest := by
    cases files with
    | nil => exact absurd rfl hne
    | cons f rest => exact ⟨f, rest, rfl⟩
  have h : kraken2Init pats (f :: rest) = .error .attributeError := by
    rfl
  exact ⟨h, fun out hout => by rw [h] at hout; exact Except.noConfusion hout⟩

theorem kraken2_calls_missing_method_witness :
    ([("s", ([] : List Char))] : List (String × List Char)) ≠ [] ∧
    (kraken2Init [] [("s", ([] : List Char))] = .error .attributeError ∧
     ∀ out : KrakenOut, kraken2Init [] [("s", ([] : List Char))] ≠ .ok out) :=
  ⟨by simp, kraken2_calls_missing_method [] [("s", [])] (by simp)⟩

/-!
## The kraken2 taxonomy-line regular expression

`parse_kraken_log` defines (but never gets to use)

  `^\s{1,2}(\d{1,2}\.\d{1,2})\t(\d+)\t(\d+)\t([UDKPCOFGS-])\t(\d+)\s+(.+)`.

It is embedded as a backtracking matcher in continuation-passing style, one
combinator per regex construct, applied to a report line anchored at its
start (`^`). -/

/-- Greedy `p{1,2}` with backtracking: try two characters, then one. -/
def rep12 (p : Char → Bool) (k : List Char → Bool) : List Char → Bool
  | [] => false
  | c1 :: rest1 =>
    p c1 && (match rest1 with
      | [] => k []
      | c2 :: rest2 => (p c2 && k rest2) || k rest1)

/-- Greedy `p*` continuation with backtracking: extend first, then yield. -/
def manyAux (p : Char → Bool) (k : List Char → Bool) : List Char → Bool
  | [] => k []
  | c :: rest => (p c && manyAux p k rest) || k (c :: rest)

/-- Greedy `p+` with backtracking. -/
def rep1 (p : Char → Bool) (k : List Char → Bool) : List Char → Bool
  | [] => false
  | c :: rest => p c && manyAux p k rest

/-- A literal character. -/
def litC (ch : Char) (k : List Char → Bool) : List Char → Bool
  | [] => false
  | c :: rest => (c = ch) && k rest

/-- A character class `[...]`. -/
def clsC (cs : List Char) (k : List Char → Bool) : List Char → Bool
  | [] => false
  | c :: rest => (c ∈ cs) && k rest

/-- Regex `.` (anything but a newline; `re.DOTALL` is not set). -/
def notNL (c : Char) : Bool := c ≠ '\n'

/-- The regex of `parse_kraken_log` applied to one report line, anchored at
the line start by its leading `^`. -/
def krakenLineMatch : List Char → Bool :=
  rep12 isPySpace
    (rep12 isDig
      (litC '.'
        (rep12 isDig
          (litC '\t'
            (rep1 isDig
              (litC '\t'
                (rep1 isDig
                  (litC '\t'
                    (clsC ['U', 'D', 'K', 'P', 'C', 'O', 'F', 'G', 'S', '-']
                      (litC '\t'
                        (rep1 isDig
                          (rep1 isPySpace
                            (rep1 notNL (fun _ => true))))))))))))))

theorem manyAux_stop (p : Char → Bool) (k : List Char → Bool) (l : List Char)
    (hk : k l = true) : manyAux p k l = true := by
  cases l with
  | nil => simpa [manyAux] using hk
  | cons c rest => simp [manyAux, hk]

theorem manyAux_intro (p : Char → Bool) (k : List Char → Bool) (xs rest : List Char)
    (hall : ∀ c ∈ xs, p c = true) (hk : k rest = true) :
    manyAux p k (xs ++ rest) = true := by
  induction xs with
  | nil => simpa using manyAux_stop p k rest hk
  | cons c xs ih =>
    have hc := hall c (by simp)
    have ih' := ih (fun d hd => hall d (by simp [hd]))
    simp [manyAux, hc, ih']

theorem rep1_intro (p : Char → Bool) (k : List Char → Bool) (xs rest : List Char)
    (hne : xs ≠ []) (hall : ∀ c ∈ xs, p c = true) (hk : k rest = true) :
    rep1 p k (xs ++ rest) = true := by
  cases xs with
  | nil => exact absurd rfl hne
  | cons c xs =>
    have hc := hall c (by simp)
    simp [rep1, hc, manyAux_intro p k xs rest (fun d hd => hall d (by simp [hd])) hk]

theorem rep12_intro (p : Char → Bool) (k : List Char → Bool) (xs rest : List Char)
    (hne : xs ≠ []) (hlen : xs.length ≤ 2) (hall : ∀ c ∈ xs, p c = true)
    (hk : k rest = true) : rep12 p k (xs ++ rest) = true := by
  cases xs with
  | nil => exact absurd rfl hne
  | cons c1 t =>
    cases t with
    | nil =>
      have hc1 := hall c1 (by simp)
      cases rest with
      | nil => simp [rep12, hc1, hk]
      | cons c2 r2 => simp [rep12, hc1, hk]
    | cons c2 t2 =>
      cases t2 with
      | nil =>
        have hc1 := hall c1 (by simp)
        have hc2 := hall c2 (by simp)
        simp [rep12, hc1, hc2, hk]
      | cons c3 t3 =>
        simp [List.length_cons] at hlen

theorem litC_intro (ch : Char) (k : List Char → Bool) (rest : List Char)
    (hk : k rest = true) : litC ch k (ch :: rest) = true := by
  simp [litC, hk]

theorem clsC_intro (cs : List Char) (c : Char) (k : List Char → Bool) (rest : List Char)
    (hc : c ∈ cs) (hk : k rest = true) : clsC cs k (c :: rest) = true := by
  simp [clsC, hc, hk]

/-- C9 counterexample: the kraken2 regex does not match the depth-0 line
`100.00<TAB>1<TAB>1<TAB>U<TAB>0<TAB>unclassified` (no leading whitespace and
a three-digit percentage, both produced by real kraken2 reports), nor a line
with the sub-rank code `S1` — contrary to the claim that every rank code and
every valid percentage, including 100.00 and depth 0, is matched. -/
theorem kraken2_regex_cx :
    krakenLineMatch ("100.00\t1\t1\tU\t0\tunclassified").toList = false ∧
    krakenLineMatch (" 10.00\t5\t5\tS1\t123\t    some taxon").toList = false := by
  decide

/-- C9 amended: the regex matches exactly the restricted line shape it
spells out: one or two leading whitespace characters, a percentage of one or
two digits, a dot and one or two digits, tab-separated clade and direct
counts, a single-character rank code among `U D K P C O F G S` (or `-`), a
taxon id, then whitespace and a name starting with a non-newline character;
lines without leading whitespace (such as `100.00` depth-0 root lines),
percentages with three or more digits, and multi-character sub-rank codes
such as `S1` are not matched. -/
theorem kraken2_regex_restricted
    (w a b cc dd tid ws nm : List Char) (rc h : Char)
    (hw : w ≠ [] ∧ w.length ≤ 2 ∧ ∀ c ∈ w, isPySpace c = true)
    (ha : a ≠ [] ∧ a.length ≤ 2 ∧ ∀ c ∈ a, isDig c = true)
    (hb : b ≠ [] ∧ b.length ≤ 2 ∧ ∀ c ∈ b, isDig c = true)
    (hcc : cc ≠ [] ∧ ∀ c ∈ cc, isDig c = true)
    (hdd : dd ≠ [] ∧ ∀ c ∈ dd, isDig c = true)
    (htid : tid ≠ [] ∧ ∀ c ∈ tid, isDig c = true)
    (hrc : rc ∈ ['U', 'D', 'K', 'P', 'C', 'O', 'F', 'G', 'S'])
    (hws : ws ≠ [] ∧ ∀ c ∈ ws, isPySpace c = true)
    (hh : notNL h = true) :
    krakenLineMatch
      (w ++ (a ++ ('.' :: (b ++ ('\t' :: (cc ++ ('\t' :: (dd ++ ('\t' :: (rc ::
        ('\t' :: (tid ++ (ws ++ (h :: nm)))))))))))))) = true := by
  obtain ⟨hw1, hw2, hw3⟩ := hw
  obtain ⟨ha1, ha2, ha3⟩ := ha
  obtain ⟨hb1, hb2, hb3⟩ := hb
  obtain ⟨hcc1, hcc2⟩ := hcc
  obtain ⟨hdd1, hdd2⟩ := hdd
  obtain ⟨htid1, htid2⟩ := htid
  obtain ⟨hws1, hws2⟩ := hws
  unfold krakenLineMatch
  apply rep12_intro _ _ w _ hw1 hw2 hw3
  apply rep12_intro _ _ a _ ha1 ha2 ha3
  apply litC_intro
  apply rep12_intro _ _ b _ hb1 hb2 hb3
  apply litC_intro
  apply rep1_intro _ _ cc _ hcc1 hcc2
  apply litC_intro
  apply rep1_intro _ _ dd _ hdd1 hdd2
  apply litC_intro
  apply clsC_intro _ _ _ _ (by simp only [List.mem_cons] at hrc ⊢; tauto)
  apply litC_intro
  apply rep1_intro _ _ tid _ htid1 htid2
  apply rep1_intro _ _ ws _ hws1 hws2
  show rep1 notNL (fun _ => true) ([h] ++ nm) = true
  apply rep1_intro _ _ [h] nm (by simp) ?_ rfl
  intro c hc
  rw [List.mem_singleton] at hc
  rw [hc]
  exact hh

theorem kraken2_regex_restricted_witness :
    ((([' '] : List Char) ≠ [] ∧ ([' '] : List Char).length ≤ 2 ∧
        ∀ c ∈ ([' '] : List Char), isPySpace c = true) ∧
     ((['9', '9'] : List Char) ≠ [] ∧ (['9', '9'] : List Char).length ≤ 2 ∧
        ∀ c ∈ (['9', '9'] : List Char), isDig c = true) ∧
     ((['9', '7'] : List Char) ≠ [] ∧ (['9', '7'] : List Char).length ≤ 2 ∧
        ∀ c ∈ (['9', '7'] : List Char), isDig c = true) ∧
     ((['1'] : List Char) ≠ [] ∧ ∀ c ∈ (['1'] : List Char), isDig c = true) ∧
     ((['2'] : List Char) ≠ [] ∧ ∀ c ∈ (['2'] : List Char), isDig c = true) ∧
     ((['3'] : List Char) ≠ [] ∧ ∀ c ∈ (['3'] : List Char), isDig c = true) ∧
     'S' ∈ (['U', 'D', 'K', 'P', 'C', 'O', 'F', 'G', 'S'] : List Char) ∧
     ((['\t', ' ', ' '] : List Char) ≠ [] ∧
        ∀ c ∈ (['\t', ' ', ' '] : List Char), isPySpace c = true) ∧
     notNL 'H' = true) ∧
    krakenLineMatch
      ([' '] ++ (['9', '9'] ++ ('.' :: (['9', '7'] ++ ('\t' :: (['1'] ++ ('\t' ::
        (['2'] ++ ('\t' :: ('S' :: ('\t' :: (['3'] ++ (['\t', ' ', ' '] ++
        ('H' :: ("omo sapiens").toList)))))))))))))) = true :=
  ⟨⟨by decide, by decide, by decide, by decide, by decide, by decide, by decide,
    by decide, by decide⟩,
   kraken2_regex_restricted [' '] ['9', '9'] ['9', '7'] ['1'] ['2'] ['3']
     ['\t', ' ', ' '] ("omo sapiens").toList 'S' 'H'
     (by decide) (by decide) (by decide) (by decide) (by decide) (by decide)
     (by decide) (by decide) (by decide)⟩

end MultiQC
